import Mathlib

/- Shallow embedding of the trading engine in src/bot.ts (class Bot).

   Token amounts are modelled as raw integer amounts: a raydium TokenAmount
   is a BN numerator over the quote token's fixed decimal denominator, and
   every amount that waitForSellSignal compares lives over that same
   denominator, so the SDK's Fraction comparisons (lt / gt) coincide with
   integer comparisons on the raw numerators.  `numerator.div(new BN(100))`
   is truncating BN division; all dividends that occur are nonnegative, so
   Int division agrees with it.

   External effects (pool quotes, the filter predicate, swap confirmation,
   the wallet balance fetched by updateBalance) are supplied by oracle
   functions, one value per round / attempt. -/

/- Association maps with the JavaScript Map get / set / delete semantics,
   used for `this.trades` and `this.stopLoss` in bot.ts.  Only `get` is ever
   observed on these maps, so representing `set` as erase-then-cons is
   observationally faithful. -/

def lookupA {α : Type} : List (String × α) → String → Option α
  | [], _ => none
  | p :: t, key => if p.1 = key then some p.2 else lookupA t key

def eraseA {α : Type} : List (String × α) → String → List (String × α)
  | [], _ => []
  | p :: t, key => if p.1 = key then eraseA t key else p :: eraseA t key

def insertA {α : Type} (m : List (String × α)) (key : String) (v : α) : List (String × α) :=
  (key, v) :: eraseA m key

abbrev SLMap := List (String × Int)

/-- BotConfig fields consumed by the verified components (src/bot.ts lines
29–65).  Percentages, intervals and retry counts are naturals; `quoteAmount`
is the raw integer amount of the configured entry size. -/
structure BotCfg where
  useSnipeList : Bool := false
  maxBuyRetries : Nat := 0
  takeProfit : Nat := 0
  stopLoss : Nat := 0
  trailingStopLoss : Bool := false
  skipSellingIfLostMoreThan : Nat := 0
  priceCheckInterval : Nat := 0
  priceCheckDuration : Nat := 0
  filterCheckInterval : Nat := 0
  filterCheckDuration : Nat := 0
  consecutiveMatchCount : Nat := 0
  quoteAmount : Int := 0
deriving DecidableEq

/-- Number of body executions of a `do { … } while (timesChecked < timesToCheck)`
loop with `timesToCheck = duration / interval` (exact JS number division) and
an integer counter incremented once per round: the body runs
⌈duration / interval⌉ times, and at least once. -/
def numRounds (duration interval : Nat) : Nat := (duration + interval - 1) / interval

/-- Raw-amount value of `amount.mul(pct).numerator.div(new BN(100))`
(bot.ts lines 481, 487, 515, 530–532); BN division truncates and the
dividends occurring here are nonnegative. -/
def pctPart (amount : Int) (pct : Nat) : Int := amount * (pct : Int) / 100

/-- Take-profit threshold of lines 481–483: quoteAmount plus its
takeProfit percentage. -/
def takeProfitAmount (entry : Int) (tpPct : Nat) : Int := entry + pctPart entry tpPct

/-- Lines 486–494: lazily initialise the per-mint stop-loss watermark.  When
the map has no entry for the mint the initial threshold is computed and
stored, otherwise the existing watermark is reused unchanged.  Returns the
local `stopLoss` variable and the updated map. -/
def stopLossInit (entry : Int) (slPct : Nat) (m : SLMap) (mint : String) : Int × SLMap :=
  match lookupA m mint with
  | none => (entry - pctPart entry slPct, insertA m mint (entry - pctPart entry slPct))
  | some s => (s, m)

/-- Lines 514–527: trailing stop-loss update.  When trailing is enabled and
the candidate floor computed from the current quote strictly exceeds the
stored value, both the map entry and the local variable are raised. -/
def trailingUpdate (cfg : BotCfg) (mint : String) (slVar : Int) (m : SLMap) (amountOut : Int) : Int × SLMap :=
  if cfg.trailingStopLoss then
    if slVar < amountOut - pctPart amountOut cfg.stopLoss then
      (amountOut - pctPart amountOut cfg.stopLoss,
        insertA m mint (amountOut - pctPart amountOut cfg.stopLoss))
    else (slVar, m)
  else (slVar, m)

inductive RoundOutcome
  | cont (slVar : Int) (m : SLMap)
  | slHit (m : SLMap)
  | tpHit (m : SLMap)
  | abortLoss (m : SLMap)
deriving DecidableEq

/-- One round of the price-check loop body (lines 500–566).  A `none` quote
models `Liquidity.fetchInfo` / `computeAmountOut` throwing, which the catch
of line 562 swallows, leaving all state untouched.  On a quote, the trailing
update runs first, then the max-loss cutoff (strict `<`, clears the
watermark, aborts with false), then the strict stop-loss and take-profit
trigger checks (both clear the watermark and break out with true). -/
def sellRound (cfg : BotCfg) (mint : String) (tpAmt slVar : Int) (m : SLMap) (quote : Option Int) : RoundOutcome :=
  match quote with
  | none => .cont slVar m
  | some amountOut =>
    if 0 < cfg.skipSellingIfLostMoreThan ∧
        amountOut < pctPart cfg.quoteAmount cfg.skipSellingIfLostMoreThan then
      .abortLoss (eraseA (trailingUpdate cfg mint slVar m amountOut).2 mint)
    else if amountOut < (trailingUpdate cfg mint slVar m amountOut).1 then
      .slHit (eraseA (trailingUpdate cfg mint slVar m amountOut).2 mint)
    else if tpAmt < amountOut then
      .tpHit (eraseA (trailingUpdate cfg mint slVar m amountOut).2 mint)
    else
      .cont (trailingUpdate cfg mint slVar m amountOut).1 (trailingUpdate cfg mint slVar m amountOut).2

inductive SellExit
  | skipped | slTrigger | tpTrigger | maxLossAbort | expiry
deriving DecidableEq

structure SellResult where
  shouldSell : Bool
  exit : SellExit
  slMap : SLMap
deriving DecidableEq

/-- The do-while of lines 499–567 over a round budget: trigger rounds break
out returning true, the max-loss cutoff returns false, and an exhausted
budget falls through to `return true` (line 569). -/
def sellLoop (cfg : BotCfg) (mint : String) (tpAmt : Int) : Nat → Int → SLMap → (Nat → Option Int) → SellResult
  | 0, _, m, _ => ⟨true, .expiry, m⟩
  | r + 1, slVar, m, quotes =>
    match sellRound cfg mint tpAmt slVar m (quotes 0) with
    | .abortLoss m2 => ⟨false, .maxLossAbort, m2⟩
    | .slHit m2 => ⟨true, .slTrigger, m2⟩
    | .tpHit m2 => ⟨true, .tpTrigger, m2⟩
    | .cont s2 m2 => sellLoop cfg mint tpAmt r s2 m2 (fun n => quotes (n + 1))

/-- waitForSellSignal (lines 475–570).  `quotes n` is the quoted exit amount
of round `n` (`none` = the fetch threw).  A zero interval or duration skips
monitoring entirely and returns true with the map untouched (line 476). -/
def waitForSellSignal (cfg : BotCfg) (mint : String) (m : SLMap) (quotes : Nat → Option Int) : SellResult :=
  if cfg.priceCheckDuration = 0 ∨ cfg.priceCheckInterval = 0 then ⟨true, .skipped, m⟩
  else
    sellLoop cfg mint (takeProfitAmount cfg.quoteAmount cfg.takeProfit)
      (numRounds cfg.priceCheckDuration cfg.priceCheckInterval)
      (stopLossInit cfg.quoteAmount cfg.stopLoss m mint).1
      (stopLossInit cfg.quoteAmount cfg.stopLoss m mint).2
      quotes

/-- Per-round state of the price-check loop — the local stop-loss variable
and the watermark map — after `k` consecutive non-terminating rounds, or
`none` once some earlier round triggered or aborted.  Built from the same
`sellRound` step as `sellLoop`. -/
def sellStates (cfg : BotCfg) (mint : String) (tpAmt : Int) (quotes : Nat → Option Int) (slVar : Int) (m : SLMap) : Nat → Option (Int × SLMap)
  | 0 => some (slVar, m)
  | k + 1 =>
    match sellStates cfg mint tpAmt quotes slVar m k with
    | none => none
    | some (s, mm) =>
      match sellRound cfg mint tpAmt s mm (quotes k) with
      | .cont s2 m2 => some (s2, m2)
      | _ => none

def isTriggered : RoundOutcome → Bool
  | .slHit _ => true
  | .tpHit _ => true
  | _ => false

inductive FilterExit
  | matched | exhausted | errored | skippedF
deriving DecidableEq

structure FilterResult where
  result : Except Unit Bool
  timesChecked : Nat
  exit : FilterExit

/-- The do-while of lines 448–470.  `oracle n` is the n-th
`filters.execute` outcome, with `none` meaning the predicate threw.  The
body is `try { … } finally { timesChecked++ }` with NO catch, so a throw
escapes the loop (and filterMatch) right after the finally has advanced the
round counter; this is recorded as an `Except.error`. -/
def filterLoop (required : Nat) : Nat → Nat → Nat → (Nat → Option Bool) → FilterResult
  | 0, _, checked, _ => ⟨Except.ok false, checked, .exhausted⟩
  | r + 1, matchCount, checked, oracle =>
    match oracle 0 with
    | none => ⟨Except.error (), checked + 1, .errored⟩
    | some true =>
      if required ≤ matchCount + 1 then ⟨Except.ok true, checked + 1, .matched⟩
      else filterLoop required r (matchCount + 1) (checked + 1) (fun n => oracle (n + 1))
    | some false => filterLoop required r 0 (checked + 1) (fun n => oracle (n + 1))

/-- filterMatch (lines 433–473): trivially true on a zero interval or
duration, otherwise the consecutive-match polling loop over the round
budget, returning false when all rounds complete below the threshold. -/
def filterMatch (cfg : BotCfg) (oracle : Nat → Option Bool) : FilterResult :=
  if cfg.filterCheckInterval = 0 ∨ cfg.filterCheckDuration = 0 then ⟨Except.ok true, 0, .skippedF⟩
  else filterLoop cfg.consecutiveMatchCount
    (numRounds cfg.filterCheckDuration cfg.filterCheckInterval) 0 0 oracle

/- Admission controller (lines 147–157, 226, 231, 334): a counting
semaphore of capacity maxTokensAtTheTime plus the sellExecutionCount
counter.  `available` is `semaphore.getValue()`; `isLocked()` is
`available ≤ 0`; `holding` counts buys currently holding a permit. -/

structure AdmState where
  available : Int
  holding : Nat
  sells : Int
deriving DecidableEq

/-- numberOfActionsBeingProcessed (line 147). -/
def inFlightCount (maxT available sells : Int) : Int := maxT - available + sells

/-- Admission test of line 149: the buy is rejected (immediate return, no
acquire) when the semaphore is locked or the in-flight count reaches the
cap. -/
def buyAdmitted (maxT : Int) (st : AdmState) : Bool :=
  if st.available ≤ 0 ∨ maxT ≤ inFlightCount maxT st.available st.sells then false else true

inductive AdmEvent
  | buyAttempt | buyRelease | sellStart | sellEnd
deriving DecidableEq

/-- Transitions of the admission structures under the cooperative
scheduler: a buy attempt acquires a permit exactly when admitted (lines
149–157); the permit is released in the finally of line 226 (modelled with
the pairing guard `0 < holding`, since every release follows its acquire);
sellExecutionCount is incremented at line 231 and decremented at
line 334. -/
def admStep (maxT : Int) (st : AdmState) (e : AdmEvent) : AdmState :=
  match e with
  | .buyAttempt =>
    if buyAdmitted maxT st then
      { st with available := st.available - 1, holding := st.holding + 1 }
    else st
  | .buyRelease =>
    if 0 < st.holding then
      { st with available := st.available + 1, holding := st.holding - 1 }
    else st
  | .sellStart => { st with sells := st.sells + 1 }
  | .sellEnd => { st with sells := st.sells - 1 }

def admInit (maxT : Int) : AdmState := ⟨maxT, 0, 0⟩

def admRun (maxT : Int) (es : List AdmEvent) : AdmState := es.foldl (admStep maxT) (admInit maxT)

def admInv (maxT : Int) (st : AdmState) : Prop :=
  st.available = maxT - (st.holding : Int) ∧ (st.holding : Int) ≤ maxT

inductive TradeState
  | idle | started | opened | closed
deriving DecidableEq

/-- Modelled from the spec: the Trade record (helpers module, not under
src/): per-position financial state with lifecycle
Idle → Started → Opened → Closed; `Closed` records exit amount, exit fee
and a closure reason, and profit = exit amount − entry amount − fees is
computed at close (spec §3). -/
structure Trade where
  mint : String
  state : TradeState := .idle
  entryAmount : Int := 0
  entryFee : Int := 0
  exitAmount : Int := 0
  exitFee : Int := 0
  closeReason : String := ""
  profit : Int := 0
deriving DecidableEq

/-- Modelled from the spec: `new Trade(mint)` followed by
`transitionStart()` (bot.ts lines 175–176 resp. 265). -/
def Trade.startTrade (mint : String) : Trade := { mint := mint, state := .started }

/-- Modelled from the spec: `trade.close(exitAmount, exitFee, reason)`
records the exit data and computes profit = exit − entry − fees (spec §3). -/
def Trade.close (t : Trade) (exitAmount exitFee : Int) (reason : String) : Trade :=
  { t with
    state := .closed
    exitAmount := exitAmount
    exitFee := exitFee
    closeReason := reason
    profit := exitAmount - t.entryAmount - (t.entryFee + exitFee) }

/-- Modelled from the spec: one line of the append-only journal written by
`trade.completeAndLog(balance, id)` — the closed trade tagged with the
monotonically increasing sequence id and the balance snapshot (spec §3). -/
structure JEntry where
  id : Nat
  trade : Trade
  balance : Int
deriving DecidableEq

inductive SwapAttempt
  | confirmed | unconfirmed | threw
deriving DecidableEq

/-- Retry loop of lines 179–221: stops at the first confirmed attempt; an
unconfirmed result is logged and retried, and an exception inside one
attempt is swallowed by the inner catch (line 218) and counts as a failed
attempt.  Returns whether some attempt confirmed. -/
def buyAttemptLoop : Nat → (Nat → SwapAttempt) → Bool
  | 0, _ => false
  | n + 1, att =>
    match att 0 with
    | .confirmed => true
    | _ => buyAttemptLoop n (fun i => att (i + 1))

inductive BuyExitKind
  | failedException | skippedFilter | confirmedBuy | retriesExhausted
deriving DecidableEq

structure BuyResult where
  trades : List (String × Trade)
  journal : List JEntry
  exitKind : BuyExitKind
deriving DecidableEq

/-- Filter stage of lines 166–173: the qualification loop runs only when
useSnipeList is off; otherwise qualification is trivially passed. -/
def filterStage (cfg : BotCfg) (fo : Nat → Option Bool) : FilterResult :=
  if cfg.useSnipeList then ⟨Except.ok true, 0, .skippedF⟩ else filterMatch cfg fo

/-- Body of buy() after the admission gate (lines 159–227).
`resolutionOk = false` models an exception from the market / token-account
resolution of lines 160–164; an errored filter check likewise escapes to
the catch of line 222, which deletes the mint from the trades map.  On a
passed filter the Trade is created, started and registered (lines 175–177)
before the retry loop; the loop never touches the trades map or the
journal, so on retry exhaustion it falls through with the Started trade
still registered (a confirmed buy is later opened by the executor's
swap_log callback, outside this function).  buy() contains no journal
write on any path. -/
def buyAfterAdmit (cfg : BotCfg) (mint : String) (resolutionOk : Bool) (fo : Nat → Option Bool)
    (att : Nat → SwapAttempt) (tr : List (String × Trade)) (j : List JEntry) : BuyResult :=
  if resolutionOk then
    match (filterStage cfg fo).result with
    | Except.error _ => ⟨eraseA tr mint, j, .failedException⟩
    | Except.ok false => ⟨tr, j, .skippedFilter⟩
    | Except.ok true =>
      if buyAttemptLoop cfg.maxBuyRetries att then
        ⟨insertA tr mint (Trade.startTrade mint), j, .confirmedBuy⟩
      else ⟨insertA tr mint (Trade.startTrade mint), j, .retriesExhausted⟩
  else ⟨eraseA tr mint, j, .failedException⟩

inductive SellScenario
  | preThrow
  | poolAbsent
  | emptyAmount
  | signalFalse
  | confirmedSell (exitAmount exitFee : Int)
  | retriesExhausted
deriving DecidableEq

structure SellState where
  trades : List (String × Trade)
  journal : List JEntry
  balance : Int
  tradesCount : Nat
  sellExecutionCount : Int
deriving DecidableEq

structure SellRunResult where
  final : SellState
  balanceBeforeRefresh : Int
deriving DecidableEq

/-- sell() (lines 230–336).  The scenario oracle selects the control path
the try body takes: `preThrow` is an exception escaping to the catch of
line 318 (only the pre-loop pool / market resolution can throw past the
inner catch), which closes the trade with zero exit amount and fee and
reason sell_failed and adds its profit to the balance; `poolAbsent`,
`emptyAmount` (lines 243, 251) and `signalFalse` (line 272) are early
returns; `confirmedSell` is a confirmed swap whose close bookkeeping
(reason closed, profit applied) is Modelled from the spec §4.5 step 7, as
it is performed by swap_log outside this function; `retriesExhausted`
leaves the trade un-closed.  The finally of lines 324–335 always refreshes
the balance to `fetchedBalance` (updateBalance) and, when a trade was
found at line 233, increments tradesCount, journals the trade with the new
id and the refreshed balance (skipped when the write fails,
`journalOk = false`, which is only logged) and removes the mint from the
trades map; sellExecutionCount is incremented on entry and decremented at
the end.  `balanceBeforeRefresh` records the balance right after the
try/catch, before updateBalance overwrites it. -/
def sellRun (mint : String) (st0 : SellState) (scen : SellScenario) (fetchedBalance : Int) (journalOk : Bool) : SellRunResult :=
  let st := { st0 with sellExecutionCount := st0.sellExecutionCount + 1 }
  let found := lookupA st.trades mint
  let afterTry : SellState × Option Trade :=
    match scen, found with
    | .preThrow, some t =>
      ({ st with balance := st.balance + (Trade.close t 0 0 "sell_failed").profit },
        some (Trade.close t 0 0 "sell_failed"))
    | .confirmedSell a f, some t =>
      ({ st with balance := st.balance + (Trade.close t a f "closed").profit },
        some (Trade.close t a f "closed"))
    | _, tr => (st, tr)
  let st2 := { afterTry.1 with balance := fetchedBalance }
  match afterTry.2 with
  | some t =>
    ⟨{ st2 with
        tradesCount := st2.tradesCount + 1
        journal := if journalOk then st2.journal ++ [⟨st2.tradesCount + 1, t, fetchedBalance⟩]
          else st2.journal
        trades := eraseA st2.trades mint
        sellExecutionCount := st2.sellExecutionCount - 1 },
      afterTry.1.balance⟩
  | none =>
    ⟨{ st2 with sellExecutionCount := st2.sellExecutionCount - 1 }, afterTry.1.balance⟩

/- Map lemmas. -/

theorem lookupA_insertA_self {α : Type} (m : List (String × α)) (k : String) (v : α) :
    lookupA (insertA m k v) k = some v := by
  simp [insertA, lookupA]

theorem lookupA_eraseA_self {α : Type} (m : List (String × α)) (k : String) :
    lookupA (eraseA m k) k = none := by
  induction m with
  | nil => rfl
  | cons p t ih =>
    by_cases h : p.1 = k
    · simp [eraseA, h, ih]
    · simp [eraseA, lookupA, h, ih]

theorem stopLossInit_lookup (entry : Int) (slPct : Nat) (m : SLMap) (mint : String) :
    lookupA (stopLossInit entry slPct m mint).2 mint = some (stopLossInit entry slPct m mint).1 := by
  unfold stopLossInit
  rcases h : lookupA m mint with _ | s
  · simp [h, lookupA_insertA_self]
  · simp [h]

/- Round lemmas for the exit-signal loop. -/

theorem trailingUpdate_fst_mono (cfg : BotCfg) (mint : String) (slVar : Int) (m : SLMap) (a : Int) :
    slVar ≤ (trailingUpdate cfg mint slVar m a).1 := by
  unfold trailingUpdate
  by_cases ht : cfg.trailingStopLoss = true
  · simp only [ht, if_true]
    by_cases hc : slVar < a - pctPart a cfg.stopLoss
    · simp only [hc, if_true]
      omega
    · simp [hc]
  · simp [ht]

theorem trailingUpdate_lookup (cfg : BotCfg) (mint : String) (slVar : Int) (m : SLMap) (a : Int)
    (hm : lookupA m mint = some slVar) :
    lookupA (trailingUpdate cfg mint slVar m a).2 mint = some (trailingUpdate cfg mint slVar m a).1 := by
  unfold trailingUpdate
  by_cases ht : cfg.trailingStopLoss = true
  · simp only [ht, if_true]
    by_cases hc : slVar < a - pctPart a cfg.stopLoss
    · simp [hc, lookupA_insertA_self]
    · simp [hc, hm]
  · simp [ht, hm]

theorem sellRound_cont (cfg : BotCfg) (mint : String) (tp slVar : Int) (m : SLMap) (q : Option Int)
    (s2 : Int) (m2 : SLMap) (hm : lookupA m mint = some slVar)
    (h : sellRound cfg mint tp slVar m q = .cont s2 m2) :
    slVar ≤ s2 ∧ lookupA m2 mint = some s2 := by
  cases q with
  | none =>
    simp only [sellRound, RoundOutcome.cont.injEq] at h
    obtain ⟨h1, h2⟩ := h
    subst h1; subst h2
    exact ⟨le_refl _, hm⟩
  | some a =>
    simp only [sellRound] at h
    split at h
    · simp at h
    · split at h
      · simp at h
      · split at h
        · simp at h
        · simp only [RoundOutcome.cont.injEq] at h
          obtain ⟨h1, h2⟩ := h
          subst h1; subst h2
          exact ⟨trailingUpdate_fst_mono cfg mint slVar m a, trailingUpdate_lookup cfg mint slVar m a hm⟩

theorem sellRound_terminal_lookup (cfg : BotCfg) (mint : String) (tp slVar : Int) (m : SLMap)
    (q : Option Int) (m2 : SLMap)
    (h : sellRound cfg mint tp slVar m q = .slHit m2 ∨ sellRound cfg mint tp slVar m q = .tpHit m2
      ∨ sellRound cfg mint tp slVar m q = .abortLoss m2) :
    lookupA m2 mint = none := by
  cases q with
  | none => rcases h with h | h | h <;> simp [sellRound] at h
  | some a =>
    rcases h with h | h | h <;>
      simp only [sellRound] at h <;>
      (try split at h) <;> (try split at h) <;> (try split at h) <;>
      first
        | (simp only [RoundOutcome.slHit.injEq, RoundOutcome.tpHit.injEq,
            RoundOutcome.abortLoss.injEq] at h
           subst h
           exact lookupA_eraseA_self _ _)
        | simp at h

/- Loop lemmas for the exit-signal loop. -/

theorem sellLoop_expiry_true (cfg : BotCfg) (mint : String) (tp : Int) :
    ∀ (r : Nat) (slVar : Int) (m : SLMap) (quotes : Nat → Option Int),
    (sellLoop cfg mint tp r slVar m quotes).exit = .expiry →
    (sellLoop cfg mint tp r slVar m quotes).shouldSell = true := by
  intro r
  induction r with
  | zero => intro slVar m quotes _; rfl
  | succ n ih =>
    intro slVar m quotes h
    rcases hr : sellRound cfg mint tp slVar m (quotes 0) with ⟨s2, m2⟩ | m2 | m2 | m2 <;>
      simp only [sellLoop, hr] at h ⊢
    · exact ih s2 m2 _ h
    · simp at h

theorem sellLoop_lookup (cfg : BotCfg) (mint : String) (tp : Int) :
    ∀ (r : Nat) (slVar : Int) (m : SLMap) (quotes : Nat → Option Int),
    lookupA m mint = some slVar →
    (((sellLoop cfg mint tp r slVar m quotes).exit = .expiry →
        (lookupA (sellLoop cfg mint tp r slVar m quotes).slMap mint).isSome = true)
      ∧ ((sellLoop cfg mint tp r slVar m quotes).exit ≠ .expiry →
        lookupA (sellLoop cfg mint tp r slVar m quotes).slMap mint = none)) := by
  intro r
  induction r with
  | zero =>
    intro slVar m quotes hm
    refine ⟨fun _ => ?_, fun h => absurd rfl h⟩
    simp [sellLoop, hm]
  | succ n ih =>
    intro slVar m quotes hm
    rcases hr : sellRound cfg mint tp slVar m (quotes 0) with ⟨s2, m2⟩ | m2 | m2 | m2
    · have hc := sellRound_cont cfg mint tp slVar m (quotes 0) s2 m2 hm hr
      have hrec := ih s2 m2 (fun n => quotes (n + 1)) hc.2
      constructor <;> intro h <;> simp only [sellLoop, hr] at h ⊢
      · exact hrec.1 h
      · exact hrec.2 h
    · have hm2 := sellRound_terminal_lookup cfg mint tp slVar m (quotes 0) m2 (Or.inl hr)
      constructor <;> intro h <;> simp only [sellLoop, hr] at h ⊢
      · simp at h
      · exact hm2
    · have hm2 := sellRound_terminal_lookup cfg mint tp slVar m (quotes 0) m2 (Or.inr (Or.inl hr))
      constructor <;> intro h <;> simp only [sellLoop, hr] at h ⊢
      · simp at h
      · exact hm2
    · have hm2 := sellRound_terminal_lookup cfg mint tp slVar m (quotes 0) m2 (Or.inr (Or.inr hr))
      constructor <;> intro h <;> simp only [sellLoop, hr] at h ⊢
      · simp at h
      · exact hm2

theorem sellLoop_abort (cfg : BotCfg) (mint : String) (tp : Int) (r : Nat) (slVar : Int)
    (m : SLMap) (quotes : Nat → Option Int) (a : Int)
    (hq : quotes 0 = some a) (hskip : 0 < cfg.skipSellingIfLostMoreThan)
    (ha : a < pctPart cfg.quoteAmount cfg.skipSellingIfLostMoreThan) :
    sellLoop cfg mint tp (r + 1) slVar m quotes
      = ⟨false, .maxLossAbort, eraseA (trailingUpdate cfg mint slVar m a).2 mint⟩ := by
  simp only [sellLoop, hq, sellRound, if_pos (And.intro hskip ha)]

theorem numRounds_pos (d i : Nat) (hd : d ≠ 0) (hi : i ≠ 0) : 1 ≤ numRounds d i := by
  unfold numRounds
  rw [Nat.le_div_iff_mul_le (Nat.pos_of_ne_zero hi)]
  omega

/- Loop lemma for the qualification loop. -/

theorem filterLoop_exhausted (required : Nat) :
    ∀ (r mc ck : Nat) (oracle : Nat → Option Bool),
    (filterLoop required r mc ck oracle).exit = .exhausted →
    (filterLoop required r mc ck oracle).result = Except.ok false := by
  intro r
  induction r with
  | zero => intro mc ck oracle _; rfl
  | succ n ih =>
    intro mc ck oracle h
    rcases ho : oracle 0 with _ | b
    · simp only [filterLoop, ho] at h
      simp at h
    · cases b with
      | true =>
        by_cases hreq : required ≤ mc + 1
        · simp only [filterLoop, ho, if_pos hreq] at h
          simp at h
        · simp only [filterLoop, ho, if_neg hreq] at h ⊢
          exact ih _ _ _ h
      | false =>
        simp only [filterLoop, ho] at h ⊢
        exact ih _ _ _ h

/- Admission lemmas. -/

theorem buyAdmitted_true_iff (maxT : Int) (st : AdmState) :
    buyAdmitted maxT st = true
      ↔ ¬(st.available ≤ 0 ∨ maxT ≤ inFlightCount maxT st.available st.sells) := by
  unfold buyAdmitted
  split
  · next h => simp [h]
  · next h => simp [h]

theorem buyAdmitted_false_iff (maxT : Int) (st : AdmState) :
    buyAdmitted maxT st = false
      ↔ (st.available ≤ 0 ∨ maxT ≤ inFlightCount maxT st.available st.sells) := by
  unfold buyAdmitted
  split
  · next h => simp [h]
  · next h => simp [h]

theorem admStep_inv (maxT : Int) (st : AdmState) (e : AdmEvent) (h : admInv maxT st) :
    admInv maxT (admStep maxT st e) := by
  obtain ⟨h1, h2⟩ := h
  cases e with
  | buyAttempt =>
    rcases hb : buyAdmitted maxT st with _ | _
    · have hstep : admStep maxT st .buyAttempt = st := by simp [admStep, hb]
      rw [hstep]
      exact ⟨h1, h2⟩
    · have hcond := (buyAdmitted_true_iff maxT st).mp hb
      push_neg at hcond
      simp only [admStep, hb, if_true, admInv, inFlightCount] at *
      constructor <;> omega
  | buyRelease =>
    by_cases hp : 0 < st.holding
    · simp only [admStep, if_pos hp, admInv] at *
      constructor <;> omega
    · simp only [admStep, if_neg hp]
      exact ⟨h1, h2⟩
  | sellStart => exact ⟨h1, h2⟩
  | sellEnd => exact ⟨h1, h2⟩

theorem admRun_inv (maxT : Int) (hN : 0 ≤ maxT) (es : List AdmEvent) :
    admInv maxT (admRun maxT es) := by
  have hfold : ∀ (l : List AdmEvent) (st : AdmState), admInv maxT st →
      admInv maxT (l.foldl (admStep maxT) st) := by
    intro l
    induction l with
    | nil => intro st hst; exact hst
    | cons e t ih => intro st hst; exact ih (admStep maxT st e) (admStep_inv maxT st e hst)
  refine hfold es (admInit maxT) ?_
  constructor <;> simp [admInit, hN]

/-- C1: for every call to the exit-signal check with nonzero price-check
interval and duration, the loop is entered with take-profit threshold
entryAmount + entryAmount·takeProfitPct/100; when no watermark exists for
the mint the initial stop loss is entryAmount − entryAmount·stopLossPct/100
and is stored in the map, and an existing watermark is reused unchanged
instead of being recomputed (entryAmount being the configured quoteAmount
every position is entered with). -/
theorem c1_exit_thresholds (cfg : BotCfg) (mint : String) (m : SLMap) (quotes : Nat → Option Int)
    (h1 : cfg.priceCheckInterval ≠ 0) (h2 : cfg.priceCheckDuration ≠ 0) :
    waitForSellSignal cfg mint m quotes
        = sellLoop cfg mint (takeProfitAmount cfg.quoteAmount cfg.takeProfit)
            (numRounds cfg.priceCheckDuration cfg.priceCheckInterval)
            (stopLossInit cfg.quoteAmount cfg.stopLoss m mint).1
            (stopLossInit cfg.quoteAmount cfg.stopLoss m mint).2 quotes
    ∧ takeProfitAmount cfg.quoteAmount cfg.takeProfit
        = cfg.quoteAmount + cfg.quoteAmount * (cfg.takeProfit : Int) / 100
    ∧ (lookupA m mint = none →
        (stopLossInit cfg.quoteAmount cfg.stopLoss m mint).1
            = cfg.quoteAmount - cfg.quoteAmount * (cfg.stopLoss : Int) / 100
        ∧ (stopLossInit cfg.quoteAmount cfg.stopLoss m mint).2
            = insertA m mint (cfg.quoteAmount - cfg.quoteAmount * (cfg.stopLoss : Int) / 100))
    ∧ (∀ s, lookupA m mint = some s → stopLossInit cfg.quoteAmount cfg.stopLoss m mint = (s, m)) := by
  refine ⟨?_, rfl, ?_, ?_⟩
  · unfold waitForSellSignal
    rw [if_neg]
    simp [h1, h2]
  · intro h
    simp [stopLossInit, h, pctPart]
  · intro s hs
    simp [stopLossInit, hs]

def cfgC1 : BotCfg :=
  { priceCheckInterval := 1000, priceCheckDuration := 9000, takeProfit := 40
    stopLoss := 20, quoteAmount := 1000 }

theorem c1_exit_thresholds_witness :
    takeProfitAmount cfgC1.quoteAmount cfgC1.takeProfit
      = cfgC1.quoteAmount + cfgC1.quoteAmount * (cfgC1.takeProfit : Int) / 100 :=
  (c1_exit_thresholds cfgC1 "tok" [] (fun _ => none) (by decide) (by decide)).2.1

/-- C2: a buy attempt is rejected — returning with the state untouched,
acquiring nothing — exactly when the permit pool is exhausted or
N − availablePermits + activeSellCount ≥ N; along every event trace at most
N buys hold permits at once; with N permits held a further buy attempt is
rejected, and it is admitted again after a holder releases (no pending
sells). -/
theorem c2_admission (maxT : Int) (st : AdmState) (es : List AdmEvent) (hN : 0 ≤ maxT) :
    (buyAdmitted maxT st = false → admStep maxT st .buyAttempt = st)
    ∧ (buyAdmitted maxT st = false
        ↔ (st.available ≤ 0 ∨ maxT ≤ inFlightCount maxT st.available st.sells))
    ∧ ((admRun maxT es).holding : Int) ≤ maxT
    ∧ (admInv maxT st → (st.holding : Int) = maxT → buyAdmitted maxT st = false)
    ∧ (admInv maxT st → (st.holding : Int) = maxT → st.sells = 0 → 1 ≤ maxT →
        buyAdmitted maxT (admStep maxT st .buyRelease) = true) := by
  refine ⟨?_, buyAdmitted_false_iff maxT st, (admRun_inv maxT hN es).2, ?_, ?_⟩
  · intro h
    simp [admStep, h]
  · intro hinv hfull
    obtain ⟨ha, h2a⟩ := hinv
    rw [buyAdmitted_false_iff]
    left
    omega
  · intro hinv hfull hsell h1
    obtain ⟨ha, h2a⟩ := hinv
    have hp : 0 < st.holding := by omega
    have hstep : admStep maxT st .buyRelease
        = { st with available := st.available + 1, holding := st.holding - 1 } := by
      simp [admStep, hp]
    rw [hstep, buyAdmitted_true_iff]
    push_neg
    refine ⟨?_, ?_⟩
    · show (0 : Int) < st.available + 1
      omega
    · show inFlightCount maxT (st.available + 1) st.sells < maxT
      simp only [inFlightCount]
      omega

def evC2 : List AdmEvent := [.buyAttempt, .sellStart, .buyAttempt, .buyAttempt, .buyRelease]

theorem c2_admission_witness : ((admRun 2 evC2).holding : Int) ≤ 2 :=
  (c2_admission 2 (admInit 2) evC2 (by decide)).2.2.1

def cfgC4 : BotCfg :=
  { filterCheckInterval := 1000, filterCheckDuration := 2000, consecutiveMatchCount := 1 }

def oracleC4 : Nat → Option Bool := fun n => if n = 0 then none else some true

def oracleC4false : Nat → Option Bool := fun n => if n = 0 then some false else some true

/-- C4: at the failing input (two-round budget, threshold 1, predicate
throws on round 0 and would return true on round 1) the qualification
check ends with the exception escaping right after the finally advanced
the round counter to 1 — the loop does not proceed to round 1 — whereas
under the spec's treat-as-false accounting the same schedule would run
round 1 and return true after two counted rounds. -/
theorem c4_filter_error_escapes :
    (filterMatch cfgC4 oracleC4).result = Except.error ()
    ∧ (filterMatch cfgC4 oracleC4).timesChecked = 1
    ∧ (filterMatch cfgC4 oracleC4).exit = .errored
    ∧ filterLoop cfgC4.consecutiveMatchCount
        (numRounds cfgC4.filterCheckDuration cfgC4.filterCheckInterval) 0 0 oracleC4false
        = ⟨Except.ok true, 2, .matched⟩ :=
  ⟨rfl, rfl, rfl, rfl⟩

/-- C6: the two polling loops have asymmetric expiry defaults — an
exit-signal check whose round budget expired without trigger or abort
returns true, while a qualification check whose rounds completed without
reaching the consecutive-match threshold returns false. -/
theorem c6_expiry_defaults (cfg : BotCfg) (mint : String) (m : SLMap)
    (quotes : Nat → Option Int) (oracle : Nat → Option Bool) :
    ((waitForSellSignal cfg mint m quotes).exit = .expiry →
        (waitForSellSignal cfg mint m quotes).shouldSell = true)
    ∧ ((filterMatch cfg oracle).exit = .exhausted →
        (filterMatch cfg oracle).result = Except.ok false) := by
  constructor
  · unfold waitForSellSignal
    split
    · intro _
      rfl
    · exact sellLoop_expiry_true cfg mint _ _ _ _ quotes
  · unfold filterMatch
    split
    · intro h
      simp at h
    · exact filterLoop_exhausted _ _ _ _ oracle

def cfgC6 : BotCfg :=
  { priceCheckInterval := 500, priceCheckDuration := 1500, takeProfit := 10
    stopLoss := 10, quoteAmount := 100 }

def quotesC6 : Nat → Option Int := fun _ => some 100

theorem c6_expiry_defaults_witness :
    (waitForSellSignal cfgC6 "tok" [] quotesC6).shouldSell = true :=
  (c6_expiry_defaults cfgC6 "tok" [] quotesC6 (fun _ => some true)).1 (by decide)

/-- C7: with skipSellingIfLostMoreThan > 0, a quoted exit amount strictly
below quoteAmount·skipPct/100 makes the exit-signal check delete the
mint's watermark and return false (max-loss abort), at whatever round and
loop state the quote arrives. -/
theorem c7_max_loss_cutoff (cfg : BotCfg) (mint : String) (m : SLMap) (quotes : Nat → Option Int)
    (a : Int) (h1 : cfg.priceCheckInterval ≠ 0) (h2 : cfg.priceCheckDuration ≠ 0)
    (hskip : 0 < cfg.skipSellingIfLostMoreThan) (hq : quotes 0 = some a)
    (ha : a < pctPart cfg.quoteAmount cfg.skipSellingIfLostMoreThan) :
    (waitForSellSignal cfg mint m quotes).shouldSell = false
    ∧ (waitForSellSignal cfg mint m quotes).exit = .maxLossAbort
    ∧ lookupA (waitForSellSignal cfg mint m quotes).slMap mint = none
    ∧ (∀ (r : Nat) (s : Int) (mm : SLMap),
        (sellLoop cfg mint (takeProfitAmount cfg.quoteAmount cfg.takeProfit) (r + 1) s mm quotes).shouldSell = false
        ∧ lookupA (sellLoop cfg mint (takeProfitAmount cfg.quoteAmount cfg.takeProfit) (r + 1) s mm quotes).slMap mint = none) := by
  have hgen : ∀ (tp : Int) (r : Nat) (s : Int) (mm : SLMap),
      sellLoop cfg mint tp (r + 1) s mm quotes
        = ⟨false, .maxLossAbort, eraseA (trailingUpdate cfg mint s mm a).2 mint⟩ :=
    fun tp r s mm => sellLoop_abort cfg mint tp r s mm quotes a hq hskip ha
  obtain ⟨r0, hr0⟩ : ∃ r0, numRounds cfg.priceCheckDuration cfg.priceCheckInterval = r0 + 1 := by
    have := numRounds_pos cfg.priceCheckDuration cfg.priceCheckInterval h2 h1
    exact ⟨numRounds cfg.priceCheckDuration cfg.priceCheckInterval - 1, by omega⟩
  have hw : waitForSellSignal cfg mint m quotes
      = ⟨false, .maxLossAbort,
          eraseA (trailingUpdate cfg mint (stopLossInit cfg.quoteAmount cfg.stopLoss m mint).1
            (stopLossInit cfg.quoteAmount cfg.stopLoss m mint).2 a).2 mint⟩ := by
    unfold waitForSellSignal
    rw [if_neg (by simp [h1, h2]), hr0, hgen]
  refine ⟨by rw [hw], by rw [hw], ?_, ?_⟩
  · rw [hw]
    exact lookupA_eraseA_self _ _
  · intro r s mm
    rw [hgen]
    exact ⟨rfl, lookupA_eraseA_self _ _⟩

def cfgC7 : BotCfg :=
  { priceCheckInterval := 1000, priceCheckDuration := 1000, takeProfit := 10
    stopLoss := 10, skipSellingIfLostMoreThan := 50, quoteAmount := 100 }

def quotesC7 : Nat → Option Int := fun _ => some 49

theorem c7_max_loss_cutoff_witness :
    (waitForSellSignal cfgC7 "tok" [] quotesC7).shouldSell = false :=
  (c7_max_loss_cutoff cfgC7 "tok" [] quotesC7 49 (by decide) (by decide) (by decide) rfl
    (by decide)).1

/-- C10: with nonzero interval and duration, when the exit-signal check
returns by round-budget expiry the mint's watermark entry is still in the
map afterwards, and on the non-expiry returns (stop-loss trigger,
take-profit trigger, max-loss abort) the entry is gone — deletion happens
only on those paths. -/
theorem c10_watermark_on_expiry (cfg : BotCfg) (mint : String) (m : SLMap)
    (quotes : Nat → Option Int)
    (h1 : cfg.priceCheckInterval ≠ 0) (h2 : cfg.priceCheckDuration ≠ 0) :
    ((waitForSellSignal cfg mint m quotes).exit = .expiry →
        (lookupA (waitForSellSignal cfg mint m quotes).slMap mint).isSome = true)
    ∧ ((waitForSellSignal cfg mint m quotes).exit ≠ .expiry →
        lookupA (waitForSellSignal cfg mint m quotes).slMap mint = none) := by
  have hini := stopLossInit_lookup cfg.quoteAmount cfg.stopLoss m mint
  unfold waitForSellSignal
  rw [if_neg (by simp [h1, h2])]
  exact sellLoop_lookup cfg mint _ _ _ _ quotes hini

def cfgC10 : BotCfg :=
  { priceCheckInterval := 1000, priceCheckDuration := 1000, takeProfit := 10
    stopLoss := 10, quoteAmount := 100 }

def quotesC10 : Nat → Option Int := fun _ => some 100

theorem c10_watermark_on_expiry_witness :
    (lookupA (waitForSellSignal cfgC10 "tok" [] quotesC10).slMap "tok").isSome = true :=
  (c10_watermark_on_expiry cfgC10 "tok" [] quotesC10 (by decide) (by decide)).1 (by decide)

def cfgC5 : BotCfg :=
  { priceCheckInterval := 1000, priceCheckDuration := 1000, takeProfit := 10
    stopLoss := 10, quoteAmount := 100000000 }

def quotesTPhit : Nat → Option Int := fun _ => some 110000001

def quotesTPedge : Nat → Option Int := fun _ => some 110000000

def quotesSLhit : Nat → Option Int := fun _ => some 89999999

def quotesSLedge : Nat → Option Int := fun _ => some 90000000

/-- C5: absent the max-loss cutoff, a round triggers a sell exactly when
the quoted amount is strictly below the (post-trailing) stored stop loss
or strictly above the take profit; a triggering round makes the loop
return true with the watermark cleared; and at the raw scale of 6 decimals
(entry 100.0, both percentages 10) the amount 110.000001 triggers
take-profit while exactly 110.0 does not, and 89.999999 triggers stop-loss
while exactly 90.0 does not (the non-triggering rounds expire with the
watermark 90.0 still stored). -/
theorem c5_trigger_boundaries (cfg : BotCfg) (mint : String) (tp s : Int) (m : SLMap) (a : Int)
    (r : Nat) (quotes : Nat → Option Int) (hq : quotes 0 = some a)
    (hns : ¬(0 < cfg.skipSellingIfLostMoreThan
      ∧ a < pctPart cfg.quoteAmount cfg.skipSellingIfLostMoreThan)) :
    (isTriggered (sellRound cfg mint tp s m (some a)) = true
        ↔ (a < (trailingUpdate cfg mint s m a).1 ∨ tp < a))
    ∧ (isTriggered (sellRound cfg mint tp s m (some a)) = true →
        (sellLoop cfg mint tp (r + 1) s m quotes).shouldSell = true
        ∧ lookupA (sellLoop cfg mint tp (r + 1) s m quotes).slMap mint = none)
    ∧ waitForSellSignal cfgC5 "tok" [] quotesTPhit = ⟨true, .tpTrigger, []⟩
    ∧ (waitForSellSignal cfgC5 "tok" [] quotesTPedge).exit = .expiry
    ∧ lookupA (waitForSellSignal cfgC5 "tok" [] quotesTPedge).slMap "tok" = some 90000000
    ∧ waitForSellSignal cfgC5 "tok" [] quotesSLhit = ⟨true, .slTrigger, []⟩
    ∧ (waitForSellSignal cfgC5 "tok" [] quotesSLedge).exit = .expiry
    ∧ lookupA (waitForSellSignal cfgC5 "tok" [] quotesSLedge).slMap "tok" = some 90000000 := by
  refine ⟨?_, ?_, by decide, by decide, by decide, by decide, by decide, by decide⟩
  · by_cases h1 : a < (trailingUpdate cfg mint s m a).1
    · simp [sellRound, if_neg hns, h1, isTriggered]
    · by_cases h2 : tp < a
      · simp [sellRound, if_neg hns, h1, h2, isTriggered]
      · simp [sellRound, if_neg hns, h1, h2, isTriggered]
  · intro htr
    by_cases h1 : a < (trailingUpdate cfg mint s m a).1
    · constructor
      · simp only [sellLoop, hq, sellRound, if_neg hns, if_pos h1]
      · simp only [sellLoop, hq, sellRound, if_neg hns, if_pos h1]
        exact lookupA_eraseA_self _ _
    · by_cases h2 : tp < a
      · constructor
        · simp only [sellLoop, hq, sellRound, if_neg hns, if_neg h1, if_pos h2]
        · simp only [sellLoop, hq, sellRound, if_neg hns, if_neg h1, if_pos h2]
          exact lookupA_eraseA_self _ _
      · exfalso
        simp [sellRound, if_neg hns, h1, h2, isTriggered] at htr

theorem c5_trigger_boundaries_witness :
    isTriggered (sellRound cfgC5 "tok" 110000000 90000000 [("tok", 90000000)] (some 110000001)) = true :=
  ((c5_trigger_boundaries cfgC5 "tok" 110000000 90000000 [("tok", 90000000)] 110000001 0
    quotesTPhit rfl (by decide)).1).mpr (by decide)

/- Invariant lemma for the per-round state trace of the exit-signal loop. -/

theorem sellStates_lookup (cfg : BotCfg) (mint : String) (tp : Int) (quotes : Nat → Option Int)
    (slVar : Int) (m : SLMap) (hm : lookupA m mint = some slVar) :
    ∀ (k : Nat) (s : Int) (mk : SLMap),
    sellStates cfg mint tp quotes slVar m k = some (s, mk) → lookupA mk mint = some s := by
  intro k
  induction k with
  | zero =>
    intro s mk h
    simp only [sellStates, Option.some.injEq, Prod.mk.injEq] at h
    obtain ⟨h1, h2⟩ := h
    subst h1
    subst h2
    exact hm
  | succ n ih =>
    intro s mk h
    rcases hs : sellStates cfg mint tp quotes slVar m n with _ | p
    · simp [sellStates, hs] at h
    · obtain ⟨sp, mp⟩ := p
      rcases hr : sellRound cfg mint tp sp mp (quotes n) with ⟨s2, m2⟩ | m2 | m2 | m2
      · simp only [sellStates, hs, hr, Option.some.injEq, Prod.mk.injEq] at h
        obtain ⟨h1, h2⟩ := h
        subst h1
        subst h2
        exact (sellRound_cont cfg mint tp sp mp (quotes n) _ _ (ih sp mp hs) hr).2
      · simp [sellStates, hs, hr] at h
      · simp [sellStates, hs, hr] at h
      · simp [sellStates, hs, hr] at h

/-- C8: with trailing stop enabled and the watermark tracking the local
stop-loss variable, the stored watermark equals the loop's stop-loss value
at every surviving round, the value never decreases from one round to the
next, and the trailing update replaces the stored value exactly when the
candidate floor currentAmount − currentAmount·stopLossPct/100 strictly
exceeds it. -/
theorem c8_trailing_monotone (cfg : BotCfg) (mint : String) (tp slVar : Int) (m : SLMap)
    (quotes : Nat → Option Int) (k : Nat)
    (ht : cfg.trailingStopLoss = true) (hm : lookupA m mint = some slVar) :
    (∀ (s : Int) (mk : SLMap), sellStates cfg mint tp quotes slVar m k = some (s, mk) →
        lookupA mk mint = some s)
    ∧ (∀ (s : Int) (mk : SLMap) (s2 : Int) (mk2 : SLMap),
        sellStates cfg mint tp quotes slVar m k = some (s, mk) →
        sellStates cfg mint tp quotes slVar m (k + 1) = some (s2, mk2) → s ≤ s2)
    ∧ (∀ (a sv : Int) (mm : SLMap), a - pctPart a cfg.stopLoss ≤ sv →
        trailingUpdate cfg mint sv mm a = (sv, mm))
    ∧ (∀ (a sv : Int) (mm : SLMap), sv < a - pctPart a cfg.stopLoss →
        trailingUpdate cfg mint sv mm a
          = (a - pctPart a cfg.stopLoss, insertA mm mint (a - pctPart a cfg.stopLoss))) := by
  refine ⟨sellStates_lookup cfg mint tp quotes slVar m hm k, ?_, ?_, ?_⟩
  · intro s mk s2 mk2 h h2
    have hl := sellStates_lookup cfg mint tp quotes slVar m hm k s mk h
    rcases hr : sellRound cfg mint tp s mk (quotes k) with ⟨s3, m3⟩ | m3 | m3 | m3
    · simp only [sellStates, h, hr, Option.some.injEq, Prod.mk.injEq] at h2
      obtain ⟨h21, h22⟩ := h2
      subst h21
      exact (sellRound_cont cfg mint tp s mk (quotes k) _ _ hl hr).1
    · simp [sellStates, h, hr] at h2
    · simp [sellStates, h, hr] at h2
    · simp [sellStates, h, hr] at h2
  · intro a sv mm hle
    have hni : ¬ sv < a - pctPart a cfg.stopLoss := not_lt.mpr hle
    simp [trailingUpdate, ht, hni]
  · intro a sv mm hlt
    simp [trailingUpdate, ht, hlt]

def cfgC8 : BotCfg :=
  { trailingStopLoss := true, stopLoss := 10, takeProfit := 10, quoteAmount := 100 }

def quotesC8 : Nat → Option Int := fun _ => some 200

theorem c8_trailing_monotone_witness : (90 : Int) ≤ 180 :=
  (c8_trailing_monotone cfgC8 "tok" 1000 90 [("tok", 90)] quotesC8 0 rfl (by decide)).2.1
    90 [("tok", 90)] 180 (insertA [("tok", 90)] "tok" 180) (by decide) (by decide)

def cfgC3 : BotCfg := { useSnipeList := true, maxBuyRetries := 2 }

/-- C3 counterexample: with useSnipeList on, two retries both unconfirmed
and no exception, the buy attempt fails to open a position yet the Started
trade is still in the active-trades map afterwards — the claimed removal
does not happen on the retries-exhausted path. -/
theorem c3_buy_discard_counterexample :
    ¬ lookupA (buyAfterAdmit cfgC3 "tokC3" true (fun _ => none)
        (fun _ => .unconfirmed) [] []).trades "tokC3" = none := by
  decide

theorem buyAfterAdmit_journal (cfg : BotCfg) (mint : String) (ok : Bool) (fo : Nat → Option Bool)
    (att : Nat → SwapAttempt) (tr : List (String × Trade)) (j : List JEntry) :
    (buyAfterAdmit cfg mint ok fo att tr j).journal = j := by
  unfold buyAfterAdmit
  split
  · split <;> first | rfl | (split <;> rfl)
  · rfl

/-- C3 (amended): when an exception escapes to the buy pipeline's catch the
mint's trade is removed from the active-trades map, and the buy pipeline
never writes a journal entry on any path; but when every swap attempt ends
unconfirmed without an exception, the Started trade remains registered in
the map. -/
theorem c3_buy_discard_amended (cfg : BotCfg) (mint : String) (fo : Nat → Option Bool)
    (att : Nat → SwapAttempt) (tr : List (String × Trade)) (j : List JEntry) :
    lookupA (buyAfterAdmit cfg mint false fo att tr j).trades mint = none
    ∧ (∀ ok : Bool, (buyAfterAdmit cfg mint ok fo att tr j).journal = j)
    ∧ (cfg.useSnipeList = true → buyAttemptLoop cfg.maxBuyRetries att = false →
        lookupA (buyAfterAdmit cfg mint true fo att tr j).trades mint
          = some (Trade.startTrade mint)) := by
  refine ⟨?_, fun ok => buyAfterAdmit_journal cfg mint ok fo att tr j, ?_⟩
  · simp [buyAfterAdmit, lookupA_eraseA_self]
  · intro hs hl
    simp [buyAfterAdmit, filterStage, hs, hl, lookupA_insertA_self]

theorem c3_buy_discard_witness :
    lookupA (buyAfterAdmit cfgC3 "tokW3" true (fun _ => some true)
        (fun _ => .threw) [] []).trades "tokW3" = some (Trade.startTrade "tokW3") :=
  (c3_buy_discard_amended cfgC3 "tokW3" (fun _ => some true) (fun _ => .threw) [] []).2.2
    rfl (by decide)

/-- C9: when an exception escapes the sell retry loop and an active Trade
exists for the mint, the trade is closed with zero exit amount, zero exit
fee and reason sell_failed, its profit is added to the running balance
(before the balance refresh of the finally), and the trade is nevertheless
journaled with the next sequence id and removed from the active-trades
map. -/
theorem c9_sell_failed_close (mint : String) (st0 : SellState) (t : Trade) (fetched : Int)
    (h : lookupA st0.trades mint = some t) :
    (sellRun mint st0 .preThrow fetched true).balanceBeforeRefresh
        = st0.balance + (Trade.close t 0 0 "sell_failed").profit
    ∧ (Trade.close t 0 0 "sell_failed").profit = 0 - t.entryAmount - (t.entryFee + 0)
    ∧ (sellRun mint st0 .preThrow fetched true).final.journal
        = st0.journal ++ [⟨st0.tradesCount + 1, Trade.close t 0 0 "sell_failed", fetched⟩]
    ∧ lookupA (sellRun mint st0 .preThrow fetched true).final.trades mint = none
    ∧ (Trade.close t 0 0 "sell_failed").closeReason = "sell_failed"
    ∧ (Trade.close t 0 0 "sell_failed").exitAmount = 0
    ∧ (Trade.close t 0 0 "sell_failed").exitFee = 0
    ∧ (Trade.close t 0 0 "sell_failed").state = TradeState.closed := by
  refine ⟨?_, rfl, ?_, ?_, rfl, rfl, rfl, rfl⟩ <;>
    simp [sellRun, h, lookupA_eraseA_self]

def tradeC9 : Trade := { mint := "tokC9", state := .opened, entryAmount := 100, entryFee := 3 }

def stateC9 : SellState := ⟨[("tokC9", tradeC9)], [], 500, 7, 0⟩

theorem c9_sell_failed_close_witness :
    lookupA (sellRun "tokC9" stateC9 .preThrow 42 true).final.trades "tokC9" = none :=
  (c9_sell_failed_close "tokC9" stateC9 tradeC9 42 (by decide)).2.2.2.1
